import Mathlib

/-!
Shallow embedding of `pkg/microservice/systemconfig/core/codehost/service/codehost.go`
(codehost registration CRUD and the OAuth session-correlation layer) together
with models of its external collaborators (persistent store, cipher, provider
adapters, Go stdlib URL/JSON/base64 helpers), and theorems settling the
specification claims about it.
-/

deriving instance DecidableEq for Except

namespace Zadig

/-- Go errors are carried as their message string (`err.Error()`). -/
abbrev GoErr := String

/-- Modelled from the spec: the store's `NotFound` error — the record-absent
failure of the mongodb collection (`repository/mongodb`, not under `src/`). -/
def notFoundErr : GoErr := "mongo: no documents in result"

/-- `models.CodeHost` (§3 CodeHostRecord): one configured code-hosting
integration. The repository's `models` package is not under `src/`; fields are
the ones the spec's data model lists and the service code reads or writes. -/
structure CodeHost where
  id : Int
  type' : String
  address : String
  accessToken : String
  refreshToken : String
  username : String
  password : String
  applicationId : String
  clientSecret : String
  isReady : String
  createdAt : Int
  updatedAt : Int
deriving Repr, DecidableEq

/-- The persistent store of code-host records, in insertion order. -/
abbrev Store := List CodeHost

/-- `mongodb.NewCodehostColl().CodeHostList()` — returns every stored record.
Modelled from the spec: store collaborator `list` (§6); I/O failure
(`StoreUnavailable`) is not representable in the pure model. -/
def codeHostList (s : Store) : List CodeHost := s

/-- `mongodb.NewCodehostColl().GetCodeHostByID` — lookup by id, `NotFound`
when absent. Modelled from the spec: store collaborator `getById` (§6). -/
def getCodeHostByID (id : Int) (s : Store) : Except GoErr CodeHost :=
  match s.find? (fun ch => ch.id == id) with
  | some ch => .ok ch
  | none => .error notFoundErr

/-- `mongodb.NewCodehostColl().AddCodeHost` — inserts the record and returns
it. Modelled from the spec: store collaborator `add` (§6). -/
def addCodeHost (ch : CodeHost) (s : Store) : CodeHost × Store :=
  (ch, s ++ [ch])

/-- `mongodb.NewCodehostColl().DeleteCodeHostByID` — delete by id, `NotFound`
when absent. Modelled from the spec: store collaborator `deleteById` (§6). -/
def deleteCodeHostByID (id : Int) (s : Store) : Except GoErr Store :=
  if s.any (fun ch => ch.id == id) then
    .ok (s.filter (fun ch => !(ch.id == id)))
  else .error notFoundErr

/-- `mongodb.NewCodehostColl().UpdateCodeHostByToken` — persists the token
fields of the record with the same id. Modelled from the spec: store
collaborator `updateTokenFields` (§6). -/
def updateCodeHostByToken (host : CodeHost) (s : Store) :
    Except GoErr (CodeHost × Store) :=
  if s.any (fun ch => ch.id == host.id) then
    .ok (host, s.map (fun ch => if ch.id == host.id then host else ch))
  else .error notFoundErr

/-- The base64 standard alphabet. -/
def b64Alphabet : List Char :=
  "ABCDEFGHIJKLMNOPQRSTUVWXYZabcdefghijklmnopqrstuvwxyz0123456789+/".data

/-- The base64 digit for a 6-bit value. -/
def b64Char (n : Nat) : Char := b64Alphabet.getD n 'A'

/-- base64-encode a byte list, 3 bytes to 4 digits, `=`-padded. -/
def base64Chunks : List Nat → List Char
  | [] => []
  | [a] => [b64Char (a / 4), b64Char (a % 4 * 16), '=', '=']
  | [a, b] => [b64Char (a / 4), b64Char (a % 4 * 16 + b / 16), b64Char (b % 16 * 4), '=']
  | a :: b :: c :: rest =>
    b64Char (a / 4) :: b64Char (a % 4 * 16 + b / 16) ::
      b64Char (b % 16 * 4 + c / 64) :: b64Char (c % 64) :: base64Chunks rest

/-- `base64.StdEncoding.EncodeToString` on the bytes of a string. Modelled
from the spec: Go stdlib collaborator; characters are taken as bytes, exact
for the ASCII credentials the flow handles. -/
def base64Encode (s : String) : String :=
  String.mk (base64Chunks (s.data.map Char.toNat))

/-- `CreateCodeHost` (`codehost.go` lines 41-58): provider-specific defaulting
for `codehub`/`gerrit`, timestamps from the clock (passed explicitly as
`now`), id assigned as `len(list)+1`, then insertion. -/
def createCodeHost (now : Int) (codehost : CodeHost) (s : Store) :
    CodeHost × Store :=
  let codehost :=
    if codehost.type' == "codehub" then { codehost with isReady := "2" }
    else codehost
  let codehost :=
    if codehost.type' == "gerrit" then
      { codehost with
        isReady := "2"
        accessToken := base64Encode (codehost.username ++ ":" ++ codehost.password) }
    else codehost
  let codehost := { codehost with createdAt := now, updatedAt := now }
  let list := codeHostList s
  let codehost := { codehost with id := (list.length : Int) + 1 }
  addCodeHost codehost s

/-- `DeleteCodeHost` (`codehost.go` lines 68-70). -/
def deleteCodeHost (id : Int) (s : Store) : Except GoErr Store :=
  deleteCodeHostByID id s

/-- `GetCodeHost` (`codehost.go` lines 80-82). -/
def getCodeHost (id : Int) (s : Store) : Except GoErr CodeHost :=
  getCodeHostByID id s

/-- Hexadecimal digit test, as Go's `net/url` `ishex`. -/
def isHex (c : Char) : Bool :=
  c.isDigit || ('a' ≤ c && c ≤ 'f') || ('A' ≤ c && c ≤ 'F')

/-- Every `%` is followed by two hex digits — the escape validity check that
makes Go's `url.Parse` fail with `invalid URL escape` otherwise. -/
def validEscapes : List Char → Bool
  | [] => true
  | '%' :: a :: b :: rest => isHex a && isHex b && validEscapes rest
  | '%' :: _ => false
  | _ :: rest => validEscapes rest

/-- The parsed form of a URL: `scheme://host/path?rawQuery` (empty scheme and
host for a relative URL, empty rawQuery when there is no `?`). -/
structure GoURL where
  scheme : String
  host : String
  path : String
  rawQuery : String
deriving Repr, DecidableEq

/-- Split off the part before the first `://`, when present. -/
def splitScheme : List Char → Option (List Char × List Char)
  | [] => none
  | ':' :: '/' :: '/' :: rest => some ([], rest)
  | c :: rest => (splitScheme rest).map (fun p => (c :: p.1, p.2))

/-- Split off the part before the first `?`, when present. -/
def splitQuery : List Char → List Char × List Char
  | [] => ([], [])
  | '?' :: rest => ([], rest)
  | c :: rest =>
    let p := splitQuery rest
    (c :: p.1, p.2)

/-- `url.Parse`. Modelled from the spec: Go stdlib collaborator, restricted
to the `scheme://host/path?query` shapes the flow handles (no userinfo,
fragment or opaque part); fails on an invalid percent escape as Go does. -/
def urlParse (s : String) : Except GoErr GoURL :=
  if validEscapes s.data then
    match splitScheme s.data with
    | some (schemePart, rest) =>
      let host := rest.takeWhile (fun c => !(c == '/') && !(c == '?'))
      let tail := rest.dropWhile (fun c => !(c == '/') && !(c == '?'))
      let pq := splitQuery tail
      .ok { scheme := String.mk schemePart, host := String.mk host
            path := String.mk pq.1, rawQuery := String.mk pq.2 }
    | none =>
      let pq := splitQuery s.data
      .ok { scheme := "", host := "", path := String.mk pq.1
            rawQuery := String.mk pq.2 }
  else .error ("parse \x22" ++ s ++ "\x22: invalid URL escape")

/-- `url.URL.String()`: reassemble the URL from its parts. -/
def GoURL.toString (u : GoURL) : String :=
  (if u.scheme == "" then "" else u.scheme ++ "://" ++ u.host) ++ u.path ++
    (if u.rawQuery == "" then "" else "?" ++ u.rawQuery)

/-- Decoded query values, as Go's `url.Values` (key-value pairs). -/
abbrev Values := List (String × String)

/-- Parse `a=b&c=d` into value pairs (`url.ParseQuery`, lenient form). -/
def parseQuery (rawQuery : String) : Values :=
  if rawQuery == "" then []
  else
    (rawQuery.splitOn "&").map (fun kv =>
      match kv.splitOn "=" with
      | k :: v :: _ => (k, v)
      | _ => (kv, ""))

/-- `url.URL.Query()`: parses `rawQuery` and returns the resulting values —
a fresh object each call, not a view into the URL. -/
def GoURL.query (u : GoURL) : Values := parseQuery u.rawQuery

/-- `url.Values.Add`: returns the values extended with one more pair (the Go
method mutates its receiver; the receiver here is always the fresh copy that
`GoURL.query` returned). -/
def Values.add (v : Values) (key val : String) : Values := v ++ [(key, val)]

/-- `handle` (`codehost.go` lines 173-184): parse the redirect URL, add the
`err`/`success` query parameter to `u.Query()`, return `u.String()`. The
addition happens on the fresh values object `u.Query()` returned, which is
then dropped, so the returned string is the reassembled URL unchanged —
exactly what the Go code does with `u.Query().Add(...)`. -/
def handle (redirectURL : String) (err : Option GoErr) : Except GoErr String :=
  match urlParse redirectURL with
  | .error parseErr => .error parseErr
  | .ok u =>
    let q := u.query
    let _ :=
      match err with
      | some e => q.add "err" e
      | none => q.add "success" "true"
    .ok u.toString

/-- `state` (`codehost.go` lines 84-87, §3 CorrelationState): the correlation
payload carried across the OAuth round trip. -/
structure GoState where
  codeHostID : Int
  redirectURL : String
deriving Repr, DecidableEq

/-- The decimal digit character for `d < 10`. -/
def digitChar (d : Nat) : Char := Char.ofNat (48 + d)

/-- Base-10 digits of `n`, little endian, with explicit fuel so the
definition is structurally recursive. -/
def natDigitsAux : Nat → Nat → List Nat
  | _, 0 => []
  | 0, _ + 1 => []
  | fuel + 1, n + 1 => (n + 1) % 10 :: natDigitsAux fuel ((n + 1) / 10)

/-- Base-10 digits of `n`, little endian (`n` itself is enough fuel). -/
def natDigits (n : Nat) : List Nat := natDigitsAux n n

/-- The value of a little-endian base-10 digit list. -/
def digitsVal : List Nat → Nat
  | [] => 0
  | d :: ds => d + 10 * digitsVal ds

/-- The characters of the decimal representation of an integer. -/
def intChars (n : Int) : List Char :=
  (if n < 0 then ['-'] else []) ++ ((natDigits n.natAbs).reverse.map digitChar)

/-- The value of a decimal digit character, `none` for a non-digit. -/
def charDigit (c : Char) : Option Nat :=
  if c.isDigit then some (c.toNat - 48) else none

/-- Parse a character list as decimal digits, most significant first. -/
def parseDigits : List Char → Option (List Nat)
  | [] => some []
  | c :: rest =>
    match charDigit c, parseDigits rest with
    | some d, some ds => some (d :: ds)
    | _, _ => none

/-- Parse the decimal representation of an integer (empty digit run = 0,
matching `intChars 0 = []`). -/
def parseIntChars (l : List Char) : Option Int :=
  if l.head? = some '-' then
    (parseDigits l.tail).map (fun ds => -(digitsVal ds.reverse : ℤ))
  else
    (parseDigits l).map (fun ds => (digitsVal ds.reverse : ℤ))

/-- `json.Marshal` of the `state` struct. Modelled from the spec: the JSON
serializer is a Go stdlib collaborator; §4.2 only requires a canonical,
invertible byte representation of the two fields, realised here as
`<decimal id>|<redirectURL>` (the id's digits never contain the separator). -/
def marshalState (st : GoState) : String :=
  String.mk (intChars st.codeHostID ++ '|' :: st.redirectURL.data)

/-- Split at the first `|`: the part before it and the part after it. -/
def splitPayload : List Char → Option (List Char × List Char)
  | [] => none
  | c :: rest =>
    if c = '|' then some ([], rest)
    else (splitPayload rest).map (fun p => (c :: p.1, p.2))

/-- `json.Unmarshal` into the `state` struct: the partial inverse of
`marshalState`. Modelled from the spec: §4.2 `MalformedPayload` is the parse
failure, distinct from `DecryptFailure`. -/
def unmarshalState (s : String) : Except GoErr GoState :=
  match splitPayload s.data with
  | none => .error "unexpected end of JSON input"
  | some (intPart, urlPart) =>
    match parseIntChars intPart with
    | none => .error "invalid state payload"
    | some n => .ok { codeHostID := n, redirectURL := String.mk urlPart }

/-- `systemconfig.GitHubProvider`. Modelled from the spec: the shared client
constants are not under `src/`; §3 names the provider kind `"github"`. -/
def GitHubProvider : String := "github"

/-- `systemconfig.GitLabProvider`. Modelled from the spec: §3 names the
provider kind `"gitlab"`. -/
def GitLabProvider : String := "gitlab"

/-- A provider protocol adapter (`oauth.Oauth`): one variant per supported
provider, each carrying the configuration its constructor received. Modelled
from the spec: the `github`/`gitlab` adapter packages are not under `src/`;
§9 describes adapters as tagged variants over the constructor arguments. -/
inductive Oauth where
  | github (callbackURL clientID clientSecret address : String)
  | gitlab (callbackURL clientID clientSecret address : String)
deriving Repr, DecidableEq

/-- `Oauth.LoginURL`: the provider's authorize-endpoint URL embedding the
opaque state. Modelled from the spec: §6 `loginURL(opaqueState)` constructs
the authorize URL from the adapter's configuration and the state. -/
def Oauth.loginURL : Oauth → String → String
  | .github callbackURL clientID _ address, st =>
    address ++ "/login/oauth/authorize?client_id=" ++ clientID ++
      "&redirect_uri=" ++ callbackURL ++ "&state=" ++ st
  | .gitlab callbackURL clientID _ address, st =>
    address ++ "/oauth/authorize?client_id=" ++ clientID ++
      "&redirect_uri=" ++ callbackURL ++ "&state=" ++ st ++
      "&response_type=code"

/-- `NewOAuth` (`codehost.go` lines 123-131): dispatch on the provider kind,
`illegal provider` for anything outside the enumeration. -/
def newOAuth (provider callbackURL clientID clientSecret address : String) :
    Except GoErr Oauth :=
  if provider == GitHubProvider then
    .ok (.github callbackURL clientID clientSecret address)
  else if provider == GitLabProvider then
    .ok (.gitlab callbackURL clientID clientSecret address)
  else .error "illegal provider"

/-- `callback` (`codehost.go` line 39). -/
def callback : String := "/api/directory/codehosts/callback"

/-- The token pair a provider exchange returns (§6 `handleCallback` result). -/
structure Token where
  accessToken : String
  refreshToken : String
deriving Repr, DecidableEq

/-- `AuthCodeHost` (`codehost.go` lines 89-121). The cipher is the repo's
`crypto` package, not under `src/`; per §6 it is passed in as the `encrypt`
collaborator, and `newAesErr` stands for the error value `crypto.NewAes`
returned — the Go code shadows it on line 116 without ever inspecting it,
which the unused binding mirrors. The store is threaded through so that the
absence of writes is visible in the result. -/
def authCodeHost (encrypt : String → Except GoErr String)
    (newAesErr : Option GoErr) (redirectURI : String) (codeHostID : Int)
    (s : Store) : Except GoErr String × Store :=
  match getCodeHost codeHostID s with
  | .error e => (.error e, s)
  | .ok codeHost =>
    match urlParse redirectURI with
    | .error e => (.error e, s)
    | .ok redirectParsedURL =>
      let callbackURL :=
        redirectParsedURL.scheme ++ "://" ++ redirectParsedURL.host ++ callback
      match newOAuth codeHost.type' callbackURL codeHost.applicationId
          codeHost.clientSecret codeHost.address with
      | .error e => (.error e, s)
      | .ok oauth =>
        let stateStruct : GoState :=
          { codeHostID := codeHost.id, redirectURL := redirectURI }
        let bs := marshalState stateStruct
        let _ := newAesErr
        match encrypt bs with
        | .error e => (.error e, s)
        | .ok encrypted => (.ok (oauth.loginURL encrypted), s)

/-- `encode` of the State Codec (§4.2): serialize then encrypt — the inline
composition `AuthCodeHost` performs on lines 110-119. -/
def stateEncode (encrypt : String → Except GoErr String) (st : GoState) :
    Except GoErr String :=
  encrypt (marshalState st)

/-- `decode` of the State Codec (§4.2): decrypt then parse — the inline
composition `HandleCallback` performs on lines 134-145. -/
def stateDecode (decrypt : String → Except GoErr String) (tok : String) :
    Except GoErr GoState :=
  match decrypt tok with
  | .error e => .error e
  | .ok decrypted => unmarshalState decrypted

/-- `HandleCallback` (`codehost.go` lines 133-171). `decrypt` is the cipher
collaborator, `exchange` the provider adapter's `HandleCallback` applied to
the inbound request (the HTTP request itself never escapes that call), and
`newAesErr` the discarded `crypto.NewAes` error as in `authCodeHost`. -/
def handleCallback (decrypt : String → Except GoErr String)
    (exchange : Oauth → Except GoErr Token) (newAesErr : Option GoErr)
    (stateStr : String) (s : Store) : Except GoErr String × Store :=
  let _ := newAesErr
  match decrypt stateStr with
  | .error e => (.error e, s)
  | .ok decrypted =>
    match unmarshalState decrypted with
    | .error e => (.error e, s)
    | .ok st =>
      match getCodeHost st.codeHostID s with
      | .error e => (handle st.redirectURL (some e), s)
      | .ok codehost =>
        match urlParse st.redirectURL with
        | .error e => (.error e, s)
        | .ok redirectParsedURL =>
          let callbackURL :=
            redirectParsedURL.scheme ++ "://" ++ redirectParsedURL.host ++ callback
          match newOAuth codehost.type' callbackURL codehost.applicationId
              codehost.clientSecret codehost.address with
          | .error e => (handle st.redirectURL (some e), s)
          | .ok o =>
            match exchange o with
            | .error e => (handle st.redirectURL (some e), s)
            | .ok token =>
              let codehost :=
                { codehost with
                  accessToken := token.accessToken
                  refreshToken := token.refreshToken }
              match updateCodeHostByToken codehost s with
              | .error e => (handle st.redirectURL (some e), s)
              | .ok (_, s2) => (handle st.redirectURL none, s2)

/-- A blank record used as creation input in concrete runs. -/
def blankHost : CodeHost :=
  { id := 0, type' := "other", address := "", accessToken := "",
    refreshToken := "", username := "", password := "", applicationId := "",
    clientSecret := "", isReady := "", createdAt := 0, updatedAt := 0 }

/-- A stored GitHub-type record, id 5. -/
def ghHost : CodeHost :=
  { blankHost with
    id := 5, type' := "github", address := "https://github.com",
    username := "user", password := "pass", applicationId := "app",
    clientSecret := "sec" }

/-- A stored gerrit-type record, id 7 — its kind is outside `newOAuth`'s
enumeration. -/
def gerritStoredHost : CodeHost := { ghHost with id := 7, type' := "gerrit" }

/-- A store holding `ghHost` and `gerritStoredHost`. -/
def ghStore : Store := [ghHost, gerritStoredHost]

/-- The caller's ultimate redirect destination in the concrete runs. -/
def doneURL : String := "https://app.example.com/done"

/-- A gerrit-type creation input. -/
def gerritHost : CodeHost :=
  { blankHost with type' := "gerrit", username := "user", password := "pass" }

/-- A codehub-type creation input with a pre-existing token. -/
def codehubHost : CodeHost :=
  { blankHost with type' := "codehub", accessToken := "tok0" }

/-- The record assigned id 1 by the first creation into the empty store. -/
def host1 : CodeHost := (createCodeHost 0 blankHost []).1

/-- The store after that first creation. -/
def store1 : Store := (createCodeHost 0 blankHost []).2

/-- The record assigned id 2 by the second creation. -/
def host2 : CodeHost := (createCodeHost 0 blankHost store1).1

/-- The store after two creations: ids 1 and 2. -/
def store2 : Store := (createCodeHost 0 blankHost store1).2

/-! ### State-codec roundtrip lemmas -/

theorem natDigitsAux_eq_digits (fuel n : Nat) (h : n ≤ fuel) :
    natDigitsAux fuel n = Nat.digits 10 n := by
  induction fuel generalizing n with
  | zero =>
    interval_cases n
    simp [natDigitsAux]
  | succ fuel ih =>
    cases n with
    | zero => simp [natDigitsAux]
    | succ m =>
      rw [show natDigitsAux (fuel + 1) (m + 1) =
            (m + 1) % 10 :: natDigitsAux fuel ((m + 1) / 10) from rfl,
        ih _ (by omega), Nat.digits_def' (by norm_num) (Nat.succ_pos m)]

theorem natDigits_eq_digits (n : Nat) : natDigits n = Nat.digits 10 n :=
  natDigitsAux_eq_digits n n le_rfl

theorem digitsVal_eq_ofDigits (l : List Nat) : digitsVal l = Nat.ofDigits 10 l := by
  induction l with
  | nil => rfl
  | cons d ds ih => simp [digitsVal, Nat.ofDigits_cons, ih]

theorem digitsVal_natDigits (n : Nat) : digitsVal (natDigits n) = n := by
  rw [digitsVal_eq_ofDigits, natDigits_eq_digits, Nat.ofDigits_digits]

theorem natDigits_lt_ten {n d : Nat} (hd : d ∈ natDigits n) : d < 10 := by
  rw [natDigits_eq_digits] at hd
  exact Nat.digits_lt_base (by norm_num) hd

theorem charDigit_digitChar {d : Nat} (h : d < 10) :
    charDigit (digitChar d) = some d := by
  interval_cases d <;> decide

theorem digitChar_ne_pipe {d : Nat} (h : d < 10) : digitChar d ≠ '|' := by
  interval_cases d <;> decide

theorem digitChar_ne_dash {d : Nat} (h : d < 10) : digitChar d ≠ '-' := by
  interval_cases d <;> decide

theorem parseDigits_map_digitChar (ds : List Nat) (h : ∀ d ∈ ds, d < 10) :
    parseDigits (ds.map digitChar) = some ds := by
  induction ds with
  | nil => rfl
  | cons d ds ih =>
    have hd : d < 10 := h d (List.mem_cons_self d ds)
    rw [List.map_cons, parseDigits, charDigit_digitChar hd,
      ih (fun x hx => h x (List.mem_cons_of_mem d hx))]

theorem head_ne_of_forall_ne {l : List Char} {c : Char} (h : ∀ x ∈ l, x ≠ c) :
    ¬l.head? = some c := by
  cases l with
  | nil => simp
  | cons a l =>
    simp only [List.head?_cons, Option.some.injEq]
    exact h a (List.mem_cons_self a l)

theorem parseIntChars_intChars (n : Int) : parseIntChars (intChars n) = some n := by
  have hlt : ∀ d ∈ (natDigits n.natAbs).reverse, d < 10 := fun d hd =>
    natDigits_lt_ten (List.mem_reverse.mp hd)
  by_cases hn : n < 0
  · rw [show intChars n = '-' :: (natDigits n.natAbs).reverse.map digitChar by
      simp [intChars, hn]]
    rw [parseIntChars]
    simp only [List.head?_cons, List.tail_cons, if_true]
    rw [parseDigits_map_digitChar _ hlt]
    simp only [Option.map_some', List.reverse_reverse, Option.some.injEq]
    rw [digitsVal_natDigits]
    omega
  · rw [show intChars n = (natDigits n.natAbs).reverse.map digitChar by
      simp [intChars, hn]]
    have hhead : ¬((natDigits n.natAbs).reverse.map digitChar).head? = some '-' :=
      head_ne_of_forall_ne (fun x hx => by
        rcases List.mem_map.mp hx with ⟨d, hd, rfl⟩
        exact digitChar_ne_dash (natDigits_lt_ten (List.mem_reverse.mp hd)))
    rw [parseIntChars, if_neg hhead, parseDigits_map_digitChar _ hlt]
    simp only [Option.map_some', List.reverse_reverse, Option.some.injEq]
    rw [digitsVal_natDigits]
    omega

theorem intChars_ne_pipe (n : Int) : ∀ c ∈ intChars n, c ≠ '|' := by
  intro c hc
  rw [intChars] at hc
  rcases List.mem_append.mp hc with h1 | h2
  · by_cases hn : n < 0
    · rw [if_pos hn] at h1
      rw [List.mem_singleton.mp h1]
      decide
    · rw [if_neg hn] at h1
      exact absurd h1 (List.not_mem_nil c)
  · rcases List.mem_map.mp h2 with ⟨d, hd, rfl⟩
    exact digitChar_ne_pipe (natDigits_lt_ten (List.mem_reverse.mp hd))

theorem splitPayload_append (a rest : List Char) (h : ∀ c ∈ a, c ≠ '|') :
    splitPayload (a ++ '|' :: rest) = some (a, rest) := by
  induction a with
  | nil => simp [splitPayload]
  | cons c a ih =>
    have hc : c ≠ '|' := h c (List.mem_cons_self c a)
    rw [List.cons_append, splitPayload, if_neg hc,
      ih (fun x hx => h x (List.mem_cons_of_mem c hx))]
    rfl

theorem unmarshalState_marshalState (st : GoState) :
    unmarshalState (marshalState st) = .ok st := by
  obtain ⟨n, url⟩ := st
  show unmarshalState (String.mk (intChars n ++ '|' :: url.data)) = _
  rw [unmarshalState, show (String.mk (intChars n ++ '|' :: url.data)).data =
      intChars n ++ '|' :: url.data from rfl,
    splitPayload_append _ _ (intChars_ne_pipe n)]
  simp only [parseIntChars_intChars]

/-! ### Claim theorems -/

/-- C4: for every valid CorrelationState, decoding the token produced by
encoding — JSON-marshal then encrypt on the initiation side, decrypt then
JSON-unmarshal on the callback side, with decryption inverting encryption as
the shared process-wide key guarantees — yields the original state:
`decode(encode(state)) == state`. -/
theorem stateCodec_roundtrip (encrypt decrypt : String → Except GoErr String)
    (hkey : ∀ p c, encrypt p = .ok c → decrypt c = .ok p) (st : GoState)
    (tok : String) (henc : stateEncode encrypt st = .ok tok) :
    stateDecode decrypt tok = .ok st := by
  rw [stateDecode, hkey _ _ henc]
  exact unmarshalState_marshalState st

/-- Witness for C4: concrete roundtrip through the identity cipher for the
state `(5, https://app.example.com/done)`. -/
theorem stateCodec_roundtrip_witness :
    stateDecode Except.ok
        (marshalState { codeHostID := 5, redirectURL := "https://app.example.com/done" }) =
      .ok { codeHostID := 5, redirectURL := "https://app.example.com/done" } :=
  stateCodec_roundtrip Except.ok Except.ok (fun _ _ h => h.symm)
    { codeHostID := 5, redirectURL := "https://app.example.com/done" }
    (marshalState { codeHostID := 5, redirectURL := "https://app.example.com/done" })
    rfl

/-- C5: a record created via `createCodeHost` with type `gerrit` carries
`accessToken = base64("username:password")` and `isReady = "2"`; with type
`codehub` it carries `isReady = "2"` with its access token left unchanged. -/
theorem createCodeHost_provider_defaults (now : Int) (ch : CodeHost) (s : Store) :
    (ch.type' = "gerrit" →
      (createCodeHost now ch s).1.accessToken =
          base64Encode (ch.username ++ ":" ++ ch.password) ∧
        (createCodeHost now ch s).1.isReady = "2") ∧
    (ch.type' = "codehub" →
      (createCodeHost now ch s).1.isReady = "2" ∧
        (createCodeHost now ch s).1.accessToken = ch.accessToken) := by
  constructor <;> intro h <;>
    simp [createCodeHost, addCodeHost, codeHostList, h]

/-- Witness for C5: a gerrit-type record gets the base64 Basic-Auth token
(`dXNlcjpwYXNz` for `user:pass`) and readiness `2`; a codehub-type record
keeps its token and gets readiness `2`. -/
theorem createCodeHost_provider_defaults_witness :
    ((createCodeHost 0 gerritHost []).1.accessToken =
        base64Encode (gerritHost.username ++ ":" ++ gerritHost.password) ∧
      (createCodeHost 0 gerritHost []).1.isReady = "2") ∧
    ((createCodeHost 0 codehubHost []).1.isReady = "2" ∧
      (createCodeHost 0 codehubHost []).1.accessToken = codehubHost.accessToken) ∧
    base64Encode (gerritHost.username ++ ":" ++ gerritHost.password) = "dXNlcjpwYXNz" :=
  ⟨(createCodeHost_provider_defaults 0 gerritHost []).1 rfl,
    (createCodeHost_provider_defaults 0 codehubHost []).2 rfl,
    by decide⟩

/-- C7: `newOAuth` on a provider kind outside the supported enumeration
returns the `illegal provider` error and no adapter; on each supported kind
it returns that kind's adapter configured with the given callback URL, client
id, client secret and address (a pure dispatch). -/
theorem newOAuth_dispatch (provider callbackURL clientID clientSecret address : String) :
    (provider ≠ GitHubProvider → provider ≠ GitLabProvider →
      newOAuth provider callbackURL clientID clientSecret address =
        .error "illegal provider") ∧
    newOAuth GitHubProvider callbackURL clientID clientSecret address =
      .ok (.github callbackURL clientID clientSecret address) ∧
    newOAuth GitLabProvider callbackURL clientID clientSecret address =
      .ok (.gitlab callbackURL clientID clientSecret address) := by
  refine ⟨fun h1 h2 => ?_, ?_, ?_⟩
  · simp only [GitHubProvider] at h1
    simp only [GitLabProvider] at h2
    simp [newOAuth, GitHubProvider, GitLabProvider, h1, h2]
  · simp [newOAuth]
  · simp [newOAuth, GitHubProvider, GitLabProvider]

/-- Witness for C7: the kind `bitbucket` is rejected with `illegal provider`. -/
theorem newOAuth_dispatch_witness :
    newOAuth "bitbucket" "cb" "id" "sec" "https://x" = .error "illegal provider" :=
  (newOAuth_dispatch "bitbucket" "cb" "id" "sec" "https://x").1
    (by decide) (by decide)

/-- Counterexample to C2: starting from the empty store, create two records
(ids 1 and 2), delete record 1, then create again: the new record receives
id 2 — the id of the still-present second record, and not
`max(existing)+1 = 3`. Ids are therefore reused after deletion. -/
theorem createCodeHost_id_reuse_counterexample :
    host2.id = 2 ∧
    deleteCodeHost 1 store2 = .ok [host2] ∧
    (createCodeHost 0 blankHost [host2]).1.id = 2 ∧
    ¬(createCodeHost 0 blankHost [host2]).1.id = 3 := by decide

/-- C2 (amended): the id assigned by `createCodeHost` is the number of
records in the store at creation time plus one (`len(list)+1`), which after
deletions can repeat an already-assigned id. -/
theorem createCodeHost_id_eq_count (now : Int) (ch : CodeHost) (s : Store) :
    (createCodeHost now ch s).1.id = (s.length : Int) + 1 := by
  simp [createCodeHost, addCodeHost, codeHostList]

theorem getCodeHostByID_absent {s : Store} {id : Int}
    (h : ∀ ch ∈ s, ch.id ≠ id) : getCodeHostByID id s = .error notFoundErr := by
  rw [getCodeHostByID, List.find?_eq_none.mpr (fun ch hch => by simpa using h ch hch)]

/-- C6: `authCodeHost` on a codeHostId absent from the store fails with the
store's NotFound error and yields no login URL; more generally a failure at
the lookup, redirect-URI-parse or adapter-resolution stage makes it return
that very error with no login URL and no other result. -/
theorem authCodeHost_short_circuit (encrypt : String → Except GoErr String)
    (newAesErr : Option GoErr) (redirectURI : String) (codeHostID : Int)
    (s : Store) :
    ((∀ ch ∈ s, ch.id ≠ codeHostID) →
      authCodeHost encrypt newAesErr redirectURI codeHostID s =
        (.error notFoundErr, s)) ∧
    (∀ e, getCodeHost codeHostID s = .error e →
      authCodeHost encrypt newAesErr redirectURI codeHostID s = (.error e, s)) ∧
    (∀ ch e, getCodeHost codeHostID s = .ok ch → urlParse redirectURI = .error e →
      authCodeHost encrypt newAesErr redirectURI codeHostID s = (.error e, s)) ∧
    (∀ ch u e, getCodeHost codeHostID s = .ok ch → urlParse redirectURI = .ok u →
      newOAuth ch.type' (u.scheme ++ "://" ++ u.host ++ callback)
          ch.applicationId ch.clientSecret ch.address = .error e →
      authCodeHost encrypt newAesErr redirectURI codeHostID s = (.error e, s)) := by
  refine ⟨fun habs => ?_, fun e he => ?_, fun ch e hget hurl => ?_,
    fun ch u e hget hurl hoauth => ?_⟩
  · rw [authCodeHost, show getCodeHost codeHostID s = .error notFoundErr from
      getCodeHostByID_absent habs]
  · rw [authCodeHost, he]
  · rw [authCodeHost, hget, hurl]
  · rw [authCodeHost, hget, hurl]
    simp only [hoauth]

/-- Witness for C6: unknown id 99 yields NotFound; a malformed redirect URI
(`%`) yields the parse error; the stored gerrit record (id 7) yields the
`illegal provider` adapter error — each with no login URL. -/
theorem authCodeHost_short_circuit_witness :
    authCodeHost Except.ok none doneURL 99 ghStore = (.error notFoundErr, ghStore) ∧
    authCodeHost Except.ok none "%" 5 ghStore =
      (.error "parse \x22%\x22: invalid URL escape", ghStore) ∧
    authCodeHost Except.ok none doneURL 7 ghStore =
      (.error "illegal provider", ghStore) :=
  ⟨(authCodeHost_short_circuit Except.ok none doneURL 99 ghStore).1 (by decide),
    (authCodeHost_short_circuit Except.ok none "%" 5 ghStore).2.2.1 ghHost _
      (by decide) (by decide),
    (authCodeHost_short_circuit Except.ok none doneURL 7 ghStore).2.2.2
      gerritStoredHost ⟨"https", "app.example.com", "/done", ""⟩ _
      (by decide) (by decide) (by decide)⟩

/-- C8: a successful `authCodeHost` hands the adapter the callback URL
`<scheme>://<host>/api/directory/codehosts/callback` built from the parsed
`redirectURI`, and the encoded CorrelationState carries the looked-up
record's id together with the unmodified original `redirectURI`; the login
URL is the adapter's for exactly that encoded state. -/
theorem authCodeHost_success_shape (encrypt : String → Except GoErr String)
    (newAesErr : Option GoErr) (redirectURI : String) (codeHostID : Int)
    (s : Store) (ch : CodeHost) (u : GoURL) (o : Oauth) (tok : String)
    (hget : getCodeHost codeHostID s = .ok ch)
    (hurl : urlParse redirectURI = .ok u)
    (hoauth : newOAuth ch.type' (u.scheme ++ "://" ++ u.host ++ callback)
        ch.applicationId ch.clientSecret ch.address = .ok o)
    (henc : encrypt (marshalState { codeHostID := ch.id, redirectURL := redirectURI }) =
      .ok tok) :
    authCodeHost encrypt newAesErr redirectURI codeHostID s =
      (.ok (o.loginURL tok), s) := by
  rw [authCodeHost, hget, hurl]
  simp only [hoauth, henc]

/-- Witness for C8: the GitHub record (id 5) with redirect URI
`https://app.example.com/done` produces the adapter login URL for callback
`https://app.example.com/api/directory/codehosts/callback` and the state
token `5|https://app.example.com/done`. -/
theorem authCodeHost_success_shape_witness :
    authCodeHost Except.ok none doneURL 5 ghStore =
      (.ok (Oauth.loginURL
        (.github ("https" ++ "://" ++ "app.example.com" ++ callback)
          "app" "sec" "https://github.com")
        "5|https://app.example.com/done"), ghStore) :=
  authCodeHost_success_shape Except.ok none doneURL 5 ghStore ghHost
    ⟨"https", "app.example.com", "/done", ""⟩
    (.github ("https" ++ "://" ++ "app.example.com" ++ callback)
      "app" "sec" "https://github.com")
    "5|https://app.example.com/done" (by decide) (by decide) (by decide) (by decide)

/-- C9: the error `crypto.NewAes` returns is immediately shadowed and never
inspected: the results of `authCodeHost` and `handleCallback` do not depend
on it. -/
theorem newAes_error_discarded (encrypt decrypt : String → Except GoErr String)
    (exchange : Oauth → Except GoErr Token) (redirectURI stateStr : String)
    (codeHostID : Int) (s : Store) (e1 e2 : Option GoErr) :
    authCodeHost encrypt e1 redirectURI codeHostID s =
        authCodeHost encrypt e2 redirectURI codeHostID s ∧
      handleCallback decrypt exchange e1 stateStr s =
        handleCallback decrypt exchange e2 stateStr s :=
  ⟨rfl, rfl⟩

/-- C10: `authCodeHost` never modifies the persistent store — on every input
and every outcome the store after the call is the store before it. -/
theorem authCodeHost_store_frame (encrypt : String → Except GoErr String)
    (newAesErr : Option GoErr) (redirectURI : String) (codeHostID : Int)
    (s : Store) :
    (authCodeHost encrypt newAesErr redirectURI codeHostID s).2 = s := by
  rw [authCodeHost]
  cases getCodeHost codeHostID s with
  | error e => rfl
  | ok ch =>
    cases urlParse redirectURI with
    | error e => rfl
    | ok u =>
      simp only []
      cases newOAuth ch.type' (u.scheme ++ "://" ++ u.host ++ callback)
          ch.applicationId ch.clientSecret ch.address with
      | error e => rfl
      | ok o =>
        cases encrypt (marshalState { codeHostID := ch.id, redirectURL := redirectURI }) with
        | error e => rfl
        | ok enc => rfl

/-- C1 is refuted by the code: a callback resolution in which the state
decodes to `(5, https://app.example.com/done)`, the record is found, the
adapter resolves, the token exchange succeeds and persistence succeeds
returns the redirect URL exactly as stored — `handle` adds `success=true`
to the values object `u.Query()` returned, a copy that is dropped before
`u.String()` is built, so no query parameter ever reaches the result (and
likewise no `err=` parameter on failures). The claimed string with
`?success=true` appended is a different string. -/
theorem handleCallback_success_missing_param :
    (handleCallback Except.ok
        (fun _ => .ok { accessToken := "at", refreshToken := "rt" }) none
        "5|https://app.example.com/done" ghStore).1 = .ok doneURL ∧
    ¬doneURL = doneURL ++ "?success=true" ∧
    handle doneURL none = .ok doneURL ∧
    handle doneURL (some "boom") = .ok doneURL := by decide

/-- C3's propagation structure holds — a non-decryptable state is a hard
error, and post-decode failures are not returned as errors — but the second
half of the claim is refuted: the error of a failed token exchange is NOT
captured into an `err` query parameter; `handle` drops the parameter it
added to the `u.Query()` copy and the browser is redirected to the stored
URL unchanged. A malformed stored redirect URL is also a hard error, as the
claim allows. -/
theorem handleCallback_error_propagation :
    handleCallback (fun _ => .error "DecryptFailure")
        (fun _ => .ok { accessToken := "at", refreshToken := "rt" }) none
        "garbage" ghStore = (.error "DecryptFailure", ghStore) ∧
    handleCallback Except.ok
        (fun _ => .ok { accessToken := "at", refreshToken := "rt" }) none
        "5|%" ghStore = (.error "parse \x22%\x22: invalid URL escape", ghStore) ∧
    (handleCallback Except.ok (fun _ => .error "exchange failed") none
        "5|https://app.example.com/done" ghStore).1 = .ok doneURL ∧
    ¬doneURL = doneURL ++ "?err=exchange failed" := by decide

end Zadig
